import Mathlib

/-!
# Verification of `TwilioAudioInterface` (src/audio_interface.py)

A shallow embedding of the Twilio ↔ ElevenLabs audio bridge of this
repository.  Bytes are `Nat` (with `< 256` side conditions where byte
arithmetic matters), inbound WebSocket messages (already JSON-parsed
Python dicts) are `JVal`, and the interface object's mutable fields
form `TwilioState`.  Methods become pure state transformers that also
return the list of observable effects they produce: outbound transport
messages (`OutMsg`) for the send paths, and the list of buffers passed
to the registered input callback for the inbound path.

Base64 is modelled after CPython's `base64.b64encode` and
`base64.b64decode` (the latter with `validate=False`, the repository's
call): characters outside the base64 alphabet are discarded before the
padding check, and a `binascii.Error` is raised when the remaining
data characters leave an incomplete quantum (`quad_pos = 1` is the
"cannot be 1 more than a multiple of 4" error, otherwise "Incorrect
padding").
-/

namespace IvrBot

/-- A raw audio buffer: a Python `bytes` value, one `Nat` per byte. -/
abbrev Buf := List Nat

/-- The standard base64 alphabet, value `n < 64` to character.
Mirrors the table used by `binascii.b2a_base64`. -/
def encChar (n : Nat) : Char :=
  if n < 26 then Char.ofNat (65 + n)
  else if n < 52 then Char.ofNat (97 + (n - 26))
  else if n < 62 then Char.ofNat (48 + (n - 52))
  else if n = 62 then '+'
  else '/'

/-- Inverse alphabet lookup, `none` for characters outside the base64
alphabet (CPython's `table_a2b_base64` entry `-1`). -/
def decVal (c : Char) : Option Nat :=
  if 'A' ≤ c ∧ c ≤ 'Z' then some (c.toNat - 65)
  else if 'a' ≤ c ∧ c ≤ 'z' then some (c.toNat - 97 + 26)
  else if '0' ≤ c ∧ c ≤ '9' then some (c.toNat - 48 + 52)
  else if c = '+' then some 62
  else if c = '/' then some 63
  else none

/-- `base64.b64encode` on a byte list, producing the character list of
the ASCII-decoded payload string (`.decode("utf-8")` in the source).
Groups of three bytes become four alphabet characters; a trailing
group of one or two bytes is padded with `'='`. -/
def b64encodeChars : Buf → List Char
  | [] => []
  | [b0] => [encChar (b0 / 4), encChar (b0 % 4 * 16), '=', '=']
  | [b0, b1] => [encChar (b0 / 4), encChar (b0 % 4 * 16 + b1 / 16),
      encChar (b1 % 16 * 4), '=']
  | b0 :: b1 :: b2 :: rest =>
      encChar (b0 / 4) :: encChar (b0 % 4 * 16 + b1 / 16) ::
      encChar (b1 % 16 * 4 + b2 / 64) :: encChar (b2 % 64) ::
      b64encodeChars rest

/-- The payload string `base64.b64encode(audio).decode("utf-8")`. -/
def b64encodeStr (audio : Buf) : String := String.mk (b64encodeChars audio)

/-- Decode loop of CPython's `binascii.a2b_base64` in non-strict mode,
the semantics of `base64.b64decode(s)` as called at
src/audio_interface.py:57.  State: remaining characters, `quadPos`
(position in the current 4-character quantum), `leftchar` (pending
bits), `pads` (consecutive padding characters seen), accumulated
output bytes in reverse.  A character outside the alphabet is
discarded; enough padding after two or three data characters ends the
decode successfully; an incomplete final quantum is an error. -/
def a2bAux : List Char → Nat → Nat → Nat → Buf → Except String Buf
  | [], quadPos, _, _, acc =>
      if quadPos = 0 then .ok acc.reverse
      else if quadPos = 1 then
        .error "Invalid base64-encoded string: number of data characters cannot be 1 more than a multiple of 4"
      else .error "Incorrect padding"
  | c :: rest, quadPos, leftchar, pads, acc =>
      if c = '=' then
        if 2 ≤ quadPos ∧ 4 ≤ quadPos + pads + 1 then .ok acc.reverse
        else a2bAux rest quadPos leftchar (pads + 1) acc
      else
        match decVal c with
        | none => a2bAux rest quadPos leftchar pads acc
        | some v =>
          match quadPos with
          | 0 => a2bAux rest 1 v 0 acc
          | 1 => a2bAux rest 2 (v % 16) 0 ((leftchar * 4 + v / 16) :: acc)
          | 2 => a2bAux rest 3 (v % 4) 0 ((leftchar * 16 + v / 4) :: acc)
          | _ => a2bAux rest 0 0 0 ((leftchar * 64 + v) :: acc)

/-- `base64.b64decode(payload)`: `.ok` with the decoded bytes, or
`.error` for a raised `binascii.Error`. -/
def pyB64Decode (s : String) : Except String Buf := a2bAux s.data 0 0 0 []

/-- A JSON value as delivered to `handle_twilio_message` by
`json.loads` in src/main.py: a string, an object (Python dict, unique
keys, modelled as an association list), or any other JSON value
(number, array, boolean, null), whose inner structure no code path of
the interface inspects. -/
inductive JVal where
  | jstr : String → JVal
  | jobj : List (String × JVal) → JVal
  | jother : JVal

/-- First-match association-list lookup: Python dict indexing on the
dicts produced by `json.loads` (keys unique, so first match is the
match). -/
def jlookup : List (String × JVal) → String → Option JVal
  | [], _ => none
  | (k, v) :: rest, key => if k = key then some v else jlookup rest key

/-- Python `d.get(key)`: `none`-default lookup on a dict, an
`AttributeError` (modelled `.error`) when the receiver is not a dict. -/
def dictGet (d : JVal) (key : String) : Except Unit (Option JVal) :=
  match d with
  | .jobj fields => .ok (jlookup fields key)
  | _ => .error ()

/-- Python `d[key]`: a `KeyError` when the key is absent, a
`TypeError` when the receiver is not a dict; both are `.error`. -/
def dictItem (d : JVal) (key : String) : Except Unit JVal :=
  match d with
  | .jobj fields =>
      match jlookup fields key with
      | some v => .ok v
      | none => .error ()
  | _ => .error ()

/-- Python `value == "name"` for a `d.get` result: true exactly when
the value is present and is that string. -/
def isEvent (ev : Option JVal) (name : String) : Bool :=
  match ev with
  | some (.jstr s) => s = name
  | _ => false

/-- An outbound transport message, the dict passed to
`websocket.send_json`: the media frame
`{"event": "media", "streamSid": sid, "media": {"payload": p}}` or the
clear frame `{"event": "clear", "streamSid": sid}`.  `streamSid` is
`none` when the Python attribute is `None` (serialised as JSON
`null`). -/
inductive OutMsg where
  | media (streamSid : Option JVal) (payload : String)
  | clear (streamSid : Option JVal)

/-- The mutable fields of a `TwilioAudioInterface` instance that the
verified methods read or write: `stream_sid` (`None` or the value
stored from a start event), whether an `input_callback` is registered,
the FIFO `output_queue` (front = next to dequeue), and the
`should_stop` lifecycle flag. -/
structure TwilioState where
  stream_sid : Option JVal
  input_callback : Bool
  output_queue : List Buf
  should_stop : Bool

/-- `__init__`: fresh state, no stream id, no callback, empty queue,
flag clear. -/
def initState : TwilioState :=
  { stream_sid := none, input_callback := false,
    output_queue := [], should_stop := false }

/-- `output(audio)`: enqueue one buffer at the back of the FIFO. -/
def output (st : TwilioState) (audio : Buf) : TwilioState :=
  { st with output_queue := st.output_queue ++ [audio] }

/-- `stop()`: set the lifecycle flag and clear `stream_sid` (the join
on the delivery thread has no effect on these fields). -/
def stop (st : TwilioState) : TwilioState :=
  { st with should_stop := true, stream_sid := none }

/-- `_send_clear_message()`: unconditionally emit one clear frame
tagged with the current `stream_sid`; its internal `try/except` means
the caller always gets a normal return. -/
def send_clear_message (st : TwilioState) : List OutMsg :=
  [.clear st.stream_sid]

/-- `interrupt()`: drain the queue with non-blocking `get` until
`queue.Empty` (so the queue ends empty), then run
`_send_clear_message`. -/
def interrupt (st : TwilioState) : TwilioState × List OutMsg :=
  ({ st with output_queue := [] }, send_clear_message st)

/-- One `_send_audio_to_twilio()` call: `get(timeout=0.2)` either
times out on an empty queue (`queue.Empty` → `pass`, no send) or
dequeues the front buffer and emits one media frame carrying the
current `stream_sid` and the base64 payload. -/
def send_audio_to_twilio (st : TwilioState) : TwilioState × List OutMsg :=
  match st.output_queue with
  | [] => (st, [])
  | audio :: rest =>
      ({ st with output_queue := rest },
       [.media st.stream_sid (b64encodeStr audio)])

/-- `n` iterations of the `_output_thread` loop
`while not should_stop: _send_audio_to_twilio()`, collecting the
emitted frames in order. -/
def runDelivery : Nat → TwilioState → TwilioState × List OutMsg
  | 0, st => (st, [])
  | n + 1, st =>
      if st.should_stop then (st, [])
      else
        let p := send_audio_to_twilio st
        let q := runDelivery n p.1
        (q.1, p.2 ++ q.2)

/-- `handle_twilio_message(data)`: returns the updated state and the
list of buffers passed to the registered input callback (one entry per
invocation).  The whole body sits in a `try/except` that swallows any
exception, so every error path returns normally with the state as
mutated so far.  The start branch runs first: a non-dict `data` fails
at `data.get`, a missing `"start"` key fails at `data["start"]`, a
non-dict start object fails at `.get("streamSid")` — in each case
`stream_sid` is not written.  The media branch then decodes
`data["media"]["payload"]` and, when a callback is registered, invokes
it synchronously with the decoded bytes. -/
def handle_twilio_message (st : TwilioState) (data : JVal) :
    TwilioState × List Buf :=
  match dictGet data "event" with
  | .error _ => (st, [])
  | .ok ev =>
      let step1 : Except Unit TwilioState :=
        if isEvent ev "start" then
          match dictItem data "start" with
          | .error _ => .error ()
          | .ok s =>
              match dictGet s "streamSid" with
              | .error _ => .error ()
              | .ok sid => .ok { st with stream_sid := sid }
        else .ok st
      match step1 with
      | .error _ => (st, [])
      | .ok st1 =>
          if isEvent ev "media" then
            match dictItem data "media" with
            | .error _ => (st1, [])
            | .ok m =>
                match dictItem m "payload" with
                | .error _ => (st1, [])
                | .ok p =>
                    match p with
                    | .jstr pstr =>
                        match pyB64Decode pstr with
                        | .error _ => (st1, [])
                        | .ok raw =>
                            if st1.input_callback then (st1, [raw])
                            else (st1, [])
                    | _ => (st1, [])
          else (st1, [])

/-- The inbound Twilio media message
`{"event": "media", "media": {"payload": p}}`. -/
def mediaMsg (p : JVal) : JVal :=
  .jobj [("event", .jstr "media"), ("media", .jobj [("payload", p)])]

/-- The inbound Twilio start message
`{"event": "start", "start": s}`. -/
def startMsg (s : JVal) : JVal :=
  .jobj [("event", .jstr "start"), ("start", s)]

/-! ## Interleaving model for `interrupt()` racing the delivery loop

`queue.Queue` is thread-safe per operation, so the shared queue is
accessed by atomic operations, but neither `interrupt()`'s drain loop
(a sequence of separate non-blocking `get` calls followed by the clear
send) nor one delivery iteration (a `get` followed by a send) is
atomic as a whole.  The model interleaves one in-flight
`_send_audio_to_twilio` iteration (thread D) with one `interrupt()`
call (thread I) at that granularity. -/

/-- Program counter of the delivery iteration: about to `get`, holding
a dequeued buffer and about to send it, or finished. -/
inductive DPc where
  | dGet
  | dSend (audio : Buf)
  | dDone

/-- Program counter of `interrupt()`: in the drain loop, about to send
the clear frame, or finished. -/
inductive IPc where
  | iDrain
  | iClear
  | iDone

/-- Shared state of the race: the queue, the stream id (read-only
here), both program counters, and the transport trace in emission
order. -/
structure ConcState where
  queue : List Buf
  sid : Option JVal
  dpc : DPc
  ipc : IPc
  trace : List OutMsg

/-- One atomic step of the delivery iteration: `get(timeout=0.2)`
(dequeue the front buffer, or observe `queue.Empty` and finish the
iteration without sending), or `send_json` of the held buffer's media
frame. -/
def stepD (s : ConcState) : ConcState :=
  match s.dpc with
  | .dGet =>
      match s.queue with
      | [] => { s with dpc := .dDone }
      | a :: rest => { s with queue := rest, dpc := .dSend a }
  | .dSend a =>
      { s with dpc := .dDone,
               trace := s.trace ++ [.media s.sid (b64encodeStr a)] }
  | .dDone => s

/-- One atomic step of `interrupt()`: a non-blocking `get` in the drain
loop (remove the front buffer, or observe `queue.Empty` and fall
through to the clear), or `send_json` of the clear frame. -/
def stepI (s : ConcState) : ConcState :=
  match s.ipc with
  | .iDrain =>
      match s.queue with
      | [] => { s with ipc := .iClear }
      | _ :: rest => { s with queue := rest }
  | .iClear =>
      { s with ipc := .iDone, trace := s.trace ++ [.clear s.sid] }
  | .iDone => s

/-- Run a schedule: `true` steps the delivery iteration, `false` steps
`interrupt()`. -/
def runSched : List Bool → ConcState → ConcState
  | [], s => s
  | c :: cs, s => runSched cs (if c then stepD s else stepI s)

/-- The race's initial state: `interrupt()` is invoked while the
delivery iteration is at its `get` and the queue holds `q`. -/
def initConc (q : List Buf) (sid : Option JVal) : ConcState :=
  { queue := q, sid := sid, dpc := .dGet, ipc := .iDrain, trace := [] }

/-- Number of media frames in a trace. -/
def countMedia : List OutMsg → Nat
  | [] => 0
  | .media _ _ :: rest => countMedia rest + 1
  | .clear _ :: rest => countMedia rest

/-- Number of clear frames in a trace. -/
def countClear : List OutMsg → Nat
  | [] => 0
  | .media _ _ :: rest => countClear rest
  | .clear _ :: rest => countClear rest + 1

/-! ## Base64 roundtrip -/

/-- Alphabet lookup inverts alphabet encoding. -/
theorem decVal_encChar : ∀ v : Nat, v < 64 → decVal (encChar v) = some v := by
  decide

/-- No alphabet character is the padding character. -/
theorem encChar_ne_pad : ∀ v : Nat, v < 64 → encChar v ≠ '=' := by
  decide

/-- Decoding step on a data character at quantum position 0. -/
theorem a2bAux_step0 (v : Nat) (hv : v < 64) (rest : List Char)
    (lc pads : Nat) (acc : Buf) :
    a2bAux (encChar v :: rest) 0 lc pads acc = a2bAux rest 1 v 0 acc := by
  simp only [a2bAux]
  rw [if_neg (encChar_ne_pad v hv), decVal_encChar v hv]

/-- Decoding step on a data character at quantum position 1. -/
theorem a2bAux_step1 (v : Nat) (hv : v < 64) (rest : List Char)
    (lc pads : Nat) (acc : Buf) :
    a2bAux (encChar v :: rest) 1 lc pads acc =
      a2bAux rest 2 (v % 16) 0 ((lc * 4 + v / 16) :: acc) := by
  simp only [a2bAux]
  rw [if_neg (encChar_ne_pad v hv), decVal_encChar v hv]

/-- Decoding step on a data character at quantum position 2. -/
theorem a2bAux_step2 (v : Nat) (hv : v < 64) (rest : List Char)
    (lc pads : Nat) (acc : Buf) :
    a2bAux (encChar v :: rest) 2 lc pads acc =
      a2bAux rest 3 (v % 4) 0 ((lc * 16 + v / 4) :: acc) := by
  simp only [a2bAux]
  rw [if_neg (encChar_ne_pad v hv), decVal_encChar v hv]

/-- Decoding step on a data character at quantum position 3. -/
theorem a2bAux_step3 (v : Nat) (hv : v < 64) (rest : List Char)
    (lc pads : Nat) (acc : Buf) :
    a2bAux (encChar v :: rest) 3 lc pads acc =
      a2bAux rest 0 0 0 ((lc * 64 + v) :: acc) := by
  simp only [a2bAux]
  rw [if_neg (encChar_ne_pad v hv), decVal_encChar v hv]

/-- Decoding step on a padding character. -/
theorem a2bAux_pad (rest : List Char) (quadPos lc pads : Nat) (acc : Buf) :
    a2bAux ('=' :: rest) quadPos lc pads acc =
      if 2 ≤ quadPos ∧ 4 ≤ quadPos + pads + 1 then Except.ok acc.reverse
      else a2bAux rest quadPos lc (pads + 1) acc := by
  simp only [a2bAux, if_true, if_pos trivial]

/-- Decoding a full 4-character quantum produced from three bytes
recovers the three bytes and returns to quantum position 0. -/
theorem a2bAux_group (b0 b1 b2 : Nat)
    (h0 : b0 < 256) (h1 : b1 < 256) (h2 : b2 < 256)
    (rest : List Char) (lc pads : Nat) (acc : Buf) :
    a2bAux (encChar (b0 / 4) :: encChar (b0 % 4 * 16 + b1 / 16) ::
            encChar (b1 % 16 * 4 + b2 / 64) :: encChar (b2 % 64) :: rest)
        0 lc pads acc
      = a2bAux rest 0 0 0 (b2 :: b1 :: b0 :: acc) := by
  rw [a2bAux_step0 _ (by omega), a2bAux_step1 _ (by omega),
      a2bAux_step2 _ (by omega), a2bAux_step3 _ (by omega)]
  have e0 : b0 / 4 * 4 + (b0 % 4 * 16 + b1 / 16) / 16 = b0 := by omega
  have e1 : (b0 % 4 * 16 + b1 / 16) % 16 * 16 +
      (b1 % 16 * 4 + b2 / 64) / 4 = b1 := by omega
  have e2 : (b1 % 16 * 4 + b2 / 64) % 4 * 64 + b2 % 64 = b2 := by omega
  rw [e0, e1, e2]

/-- Decoding the encoding of any byte list, from quantum position 0
with any pending state, yields exactly those bytes appended to the
accumulator. -/
theorem a2bAux_encode : ∀ (s : Buf), (∀ b ∈ s, b < 256) →
    ∀ (lc pads : Nat) (acc : Buf),
    a2bAux (b64encodeChars s) 0 lc pads acc = Except.ok (acc.reverse ++ s) := by
  intro s
  induction s using b64encodeChars.induct with
  | case1 =>
      intro _ lc pads acc
      simp [b64encodeChars, a2bAux]
  | case2 b0 =>
      intro hs lc pads acc
      have h0 : b0 < 256 := hs b0 (by simp)
      simp only [b64encodeChars]
      rw [a2bAux_step0 _ (by omega), a2bAux_step1 _ (by omega)]
      rw [a2bAux_pad, if_neg (by omega), a2bAux_pad, if_pos (by omega)]
      have e : b0 / 4 * 4 + b0 % 4 * 16 / 16 = b0 := by omega
      rw [e]
      simp
  | case3 b0 b1 =>
      intro hs lc pads acc
      have h0 : b0 < 256 := hs b0 (by simp)
      have h1 : b1 < 256 := hs b1 (by simp)
      simp only [b64encodeChars]
      rw [a2bAux_step0 _ (by omega), a2bAux_step1 _ (by omega),
          a2bAux_step2 _ (by omega)]
      rw [a2bAux_pad, if_pos (by omega)]
      have e0 : b0 / 4 * 4 + (b0 % 4 * 16 + b1 / 16) / 16 = b0 := by omega
      have e1 : (b0 % 4 * 16 + b1 / 16) % 16 * 16 + b1 % 16 * 4 / 4 = b1 := by
        omega
      rw [e0, e1]
      simp
  | case4 b0 b1 b2 rest ih =>
      intro hs lc pads acc
      have h0 : b0 < 256 := hs b0 (by simp)
      have h1 : b1 < 256 := hs b1 (by simp)
      have h2 : b2 < 256 := hs b2 (by simp)
      have hrest : ∀ b ∈ rest, b < 256 := fun b hb => hs b (by simp [hb])
      simp only [b64encodeChars]
      rw [a2bAux_group b0 b1 b2 h0 h1 h2]
      rw [ih hrest 0 0 (b2 :: b1 :: b0 :: acc)]
      simp

/-- `base64.b64decode` inverts `base64.b64encode` on any byte string. -/
theorem pyB64Decode_encode (s : Buf) (hs : ∀ b ∈ s, b < 256) :
    pyB64Decode (b64encodeStr s) = Except.ok s := by
  have h := a2bAux_encode s hs 0 0 []
  simpa [pyB64Decode, b64encodeStr] using h

/-! ## Claims -/

/-- C1, falsified at a concrete session state: with `streamSid` unset
(`stream_sid = none`) and one queued buffer `[7]`, the delivery loop's
media send emits a transport message (tagged `streamSid = null` with
payload `"Bw=="`), and the interrupt controller's clear send emits a
clear message tagged `streamSid = null` — neither send is a no-op. -/
theorem c1_counterexample :
    (send_audio_to_twilio
        { stream_sid := none, input_callback := false,
          output_queue := [[7]], should_stop := false }).2
      = [OutMsg.media none "Bw=="] ∧
    send_clear_message
        { stream_sid := none, input_callback := false,
          output_queue := [[7]], should_stop := false }
      = [OutMsg.clear none] :=
  ⟨rfl, rfl⟩

/-- C1, amended: when `streamSid` is unset, outbound sends are not
suppressed — the media send (on a nonempty queue) emits a media frame
tagged `streamSid = null`, and the clear send emits a clear frame
tagged `streamSid = null`; neither path guards on the stream id. -/
theorem c1_amended_unguarded_sends (st : TwilioState) (a : Buf)
    (rest : List Buf) (hsid : st.stream_sid = none)
    (hq : st.output_queue = a :: rest) :
    (send_audio_to_twilio st).2 = [OutMsg.media none (b64encodeStr a)] ∧
    send_clear_message st = [OutMsg.clear none] := by
  constructor
  · simp [send_audio_to_twilio, hq, hsid]
  · simp [send_clear_message, hsid]

/-- Witness for `c1_amended_unguarded_sends` at the concrete state of
`c1_counterexample`. -/
theorem c1_witness :
    ({ stream_sid := none, input_callback := false,
       output_queue := [[7]], should_stop := false } :
        TwilioState).stream_sid = none ∧
    ({ stream_sid := none, input_callback := false,
       output_queue := [[7]], should_stop := false } :
        TwilioState).output_queue = [7] :: [] ∧
    ((send_audio_to_twilio
        { stream_sid := none, input_callback := false,
          output_queue := [[7]], should_stop := false }).2
        = [OutMsg.media none (b64encodeStr [7])] ∧
     send_clear_message
        { stream_sid := none, input_callback := false,
          output_queue := [[7]], should_stop := false }
        = [OutMsg.clear none]) :=
  ⟨rfl, rfl, c1_amended_unguarded_sends _ _ _ rfl rfl⟩

/-- C2: for every state (any queue contents, any stream id), after
`interrupt()` the outbound queue is empty — so it contains none of the
buffers present at invocation — and the transport trace of the call is
exactly one clear frame `{event: "clear", streamSid: <current stream
id>}`; the function is total, so no exception reaches the caller. -/
theorem c2_interrupt_flush_and_clear (st : TwilioState) :
    (interrupt st).1.output_queue = [] ∧
    (interrupt st).2 = [OutMsg.clear st.stream_sid] :=
  ⟨rfl, rfl⟩

/-- C6: an inbound message whose event tag is neither `"start"` nor
`"media"` (including a dict with no event field) is handled without
error, invokes no callback, and leaves the whole state — stream id,
callback registration, lifecycle flag, outbound queue — unchanged. -/
theorem c6_unknown_event_noop (st : TwilioState) (data : JVal)
    (ev : Option JVal) (hev : dictGet data "event" = .ok ev)
    (hstart : isEvent ev "start" = false)
    (hmedia : isEvent ev "media" = false) :
    handle_twilio_message st data = (st, []) := by
  simp [handle_twilio_message, hev, hstart, hmedia]

/-- Witness for `c6_unknown_event_noop` on the Twilio
`{"event": "connected"}` message. -/
theorem c6_witness :
    dictGet (.jobj [("event", .jstr "connected")]) "event"
        = .ok (some (.jstr "connected")) ∧
    isEvent (some (.jstr "connected")) "start" = false ∧
    isEvent (some (.jstr "connected")) "media" = false ∧
    handle_twilio_message initState (.jobj [("event", .jstr "connected")])
        = (initState, []) :=
  ⟨rfl, rfl, rfl, c6_unknown_event_noop _ _ _ rfl rfl rfl⟩

/-- C7: handling `{event: "start", start: {streamSid: "SID123"}}` and
then calling `output(buf)` makes the delivery loop emit exactly the
media frame `{event: "media", streamSid: "SID123", media: {payload:
base64(buf)}}`. -/
theorem c7_start_then_output (st : TwilioState) (buf : Buf)
    (hq : st.output_queue = []) :
    (send_audio_to_twilio
        (output (handle_twilio_message st
            (startMsg (.jobj [("streamSid", .jstr "SID123")]))).1 buf)).2
      = [OutMsg.media (some (.jstr "SID123")) (b64encodeStr buf)] := by
  simp [handle_twilio_message, startMsg, dictGet, dictItem, jlookup,
    isEvent, output, send_audio_to_twilio, hq]

/-- Witness for `c7_start_then_output` on a fresh session and the
buffer `[1, 2, 3]`. -/
theorem c7_witness :
    initState.output_queue = [] ∧
    (send_audio_to_twilio
        (output (handle_twilio_message initState
            (startMsg (.jobj [("streamSid", .jstr "SID123")]))).1
          [1, 2, 3])).2
      = [OutMsg.media (some (.jstr "SID123")) (b64encodeStr [1, 2, 3])] :=
  ⟨rfl, c7_start_then_output _ _ rfl⟩

/-- C10: handling `{event: "start", start: {}}` — a start object with
no `streamSid` field — raises nothing and stores `None` as the stream
id, overwriting any previously stored value; no callback runs. -/
theorem c10_start_missing_sid (st : TwilioState) :
    handle_twilio_message st (startMsg (.jobj [])) =
      ({ st with stream_sid := none }, []) := by
  simp [handle_twilio_message, startMsg, dictGet, dictItem, jlookup,
    isEvent]

/-- C4: handling `{event: "media", media: {payload: base64(s)}}` with
a callback registered invokes the callback exactly once with exactly
the raw bytes `s` (and changes no state); with no callback registered
it invokes nothing and does not fail. -/
theorem c4_media_callback (st : TwilioState) (s : Buf)
    (hs : ∀ b ∈ s, b < 256) :
    handle_twilio_message st (mediaMsg (.jstr (b64encodeStr s)))
      = (st, if st.input_callback then [s] else []) := by
  by_cases hcb : st.input_callback <;>
    simp [handle_twilio_message, mediaMsg, dictGet, dictItem, jlookup,
      isEvent, pyB64Decode_encode s hs, hcb]

/-- Witness for `c4_media_callback` on `base64("hello")` with a
callback registered. -/
theorem c4_witness :
    (∀ b ∈ ([104, 101, 108, 108, 111] : Buf), b < 256) ∧
    handle_twilio_message
        { stream_sid := some (.jstr "S"), input_callback := true,
          output_queue := [], should_stop := false }
        (mediaMsg (.jstr (b64encodeStr [104, 101, 108, 108, 111])))
      = ({ stream_sid := some (.jstr "S"), input_callback := true,
           output_queue := [], should_stop := false },
         [[104, 101, 108, 108, 111]]) :=
  ⟨by decide, c4_media_callback _ _ (by decide)⟩

/-- C5, falsified at a concrete input: the payload `"!"` is not valid
base64, yet `base64.b64decode` (non-strict) discards the invalid
character and returns the empty byte string, so the registered
callback is invoked once (with `b""`) rather than zero times. -/
theorem c5_counterexample :
    (handle_twilio_message
        { stream_sid := none, input_callback := true,
          output_queue := [], should_stop := false }
        (mediaMsg (.jstr "!"))).2
      = [[]] :=
  rfl

/-- C5, amended: a malformed inbound message whose decoding raises —
a media event with no `payload` field, or a payload on which
`base64.b64decode` raises `binascii.Error` — propagates no exception,
invokes the callback zero times and leaves the state unchanged, and a
subsequent well-formed media message is still processed correctly;
however a payload made of characters the lenient decoder merely
discards (e.g. `"!"`) still invokes the callback, with the bytes of
whatever remains after discarding. -/
theorem c5_malformed_then_valid (st : TwilioState) (p e : String)
    (s : Buf) (hp : pyB64Decode p = .error e)
    (hcb : st.input_callback = true) (hs : ∀ b ∈ s, b < 256) :
    handle_twilio_message st (mediaMsg (.jstr p)) = (st, []) ∧
    handle_twilio_message st
        (.jobj [("event", .jstr "media"), ("media", .jobj [])])
      = (st, []) ∧
    handle_twilio_message st (mediaMsg (.jstr (b64encodeStr s)))
      = (st, [s]) := by
  refine ⟨?_, ?_, ?_⟩
  · simp [handle_twilio_message, mediaMsg, dictGet, dictItem, jlookup,
      isEvent, hp]
  · simp [handle_twilio_message, dictGet, dictItem, jlookup, isEvent]
  · simp [handle_twilio_message, mediaMsg, dictGet, dictItem, jlookup,
      isEvent, pyB64Decode_encode s hs, hcb]

/-- Witness for `c5_malformed_then_valid`: the payload `"a"` raises
(one data character more than a multiple of four), then
`base64([1, 2, 3])` is processed. -/
theorem c5_witness :
    pyB64Decode "a" = .error "Invalid base64-encoded string: number of data characters cannot be 1 more than a multiple of 4" ∧
    ({ stream_sid := none, input_callback := true,
       output_queue := [], should_stop := false } :
        TwilioState).input_callback = true ∧
    (∀ b ∈ ([1, 2, 3] : Buf), b < 256) ∧
    (handle_twilio_message
        { stream_sid := none, input_callback := true,
          output_queue := [], should_stop := false }
        (mediaMsg (.jstr "a"))
      = ({ stream_sid := none, input_callback := true,
           output_queue := [], should_stop := false }, []) ∧
     handle_twilio_message
        { stream_sid := none, input_callback := true,
          output_queue := [], should_stop := false }
        (.jobj [("event", .jstr "media"), ("media", .jobj [])])
      = ({ stream_sid := none, input_callback := true,
           output_queue := [], should_stop := false }, []) ∧
     handle_twilio_message
        { stream_sid := none, input_callback := true,
          output_queue := [], should_stop := false }
        (mediaMsg (.jstr (b64encodeStr [1, 2, 3])))
      = ({ stream_sid := none, input_callback := true,
           output_queue := [], should_stop := false }, [[1, 2, 3]])) :=
  ⟨rfl, rfl, by decide, c5_malformed_then_valid _ _ _ _ rfl rfl (by decide)⟩

/-- `output` calls only append to the queue, in call order. -/
theorem foldl_output_queue (bs : List Buf) : ∀ st : TwilioState,
    List.foldl output st bs =
      { st with output_queue := st.output_queue ++ bs } := by
  induction bs with
  | nil => intro st; simp
  | cons b bs ih =>
      intro st
      rw [List.foldl_cons, ih (output st b)]
      simp [output]

/-- Running as many delivery iterations as there are queued buffers
(lifecycle flag clear) drains the queue front-to-back, emitting one
media frame per buffer, in queue order, each tagged with the current
stream id. -/
theorem runDelivery_drains : ∀ (q : List Buf) (st : TwilioState),
    st.output_queue = q → st.should_stop = false →
    runDelivery q.length st =
      ({ st with output_queue := [] },
       q.map fun b => OutMsg.media st.stream_sid (b64encodeStr b)) := by
  intro q
  induction q with
  | nil =>
      intro st hq _
      rw [show ({ st with output_queue := [] } : TwilioState) = st by
        rw [← hq]]
      simp [runDelivery]
  | cons b q ih =>
      intro st hq hstop
      obtain ⟨sid, cb, oq, stop⟩ := st
      simp only at hq hstop
      subst hq
      subst hstop
      have hsend : send_audio_to_twilio ⟨sid, cb, b :: q, false⟩ =
          (⟨sid, cb, q, false⟩, [OutMsg.media sid (b64encodeStr b)]) := rfl
      have ih2 := ih ⟨sid, cb, q, false⟩ rfl rfl
      simp only [List.length_cons, runDelivery, hsend, ih2]
      simp

/-- C3: starting from an idle session (empty queue, lifecycle flag
clear), after `output(b1), ..., output(bn)` with no interrupt, `n`
delivery iterations emit exactly `n` media frames whose payloads are
`base64(b1), ..., base64(bn)` in that order, each tagged with the
session's current stream id. -/
theorem c3_delivery_order (st : TwilioState) (bs : List Buf)
    (hq : st.output_queue = []) (hstop : st.should_stop = false) :
    (runDelivery bs.length (List.foldl output st bs)).2
      = bs.map (fun b => OutMsg.media st.stream_sid (b64encodeStr b)) := by
  have hfold := foldl_output_queue bs st
  have hq2 : (List.foldl output st bs).output_queue = bs := by
    rw [hfold]; simp [hq]
  have hs2 : (List.foldl output st bs).should_stop = false := by
    rw [hfold]; exact hstop
  rw [runDelivery_drains bs (List.foldl output st bs) hq2 hs2]
  rw [hfold]

/-- Witness for `c3_delivery_order` on a fresh session and the buffer
sequence `[[1], [2], [3]]`. -/
theorem c3_witness :
    initState.output_queue = [] ∧ initState.should_stop = false ∧
    (runDelivery ([[1], [2], [3]] : List Buf).length
        (List.foldl output initState [[1], [2], [3]])).2
      = ([[1], [2], [3]] : List Buf).map
          (fun b => OutMsg.media initState.stream_sid (b64encodeStr b)) :=
  ⟨rfl, rfl, c3_delivery_order _ _ rfl rfl⟩

/-- C9, falsified by an interleaving: with one buffer `[7]` queued
when `interrupt()` begins, the schedule "delivery dequeues, interrupt
drains (sees empty) and sends the clear, delivery sends its held
buffer" produces the trace clear-then-media — a buffer that was queued
when `interrupt()` began reaches the transport after the flush. -/
theorem c9_counterexample :
    (runSched [true, false, false, true]
        (initConc [[7]] (some (.jstr "SID123")))).trace
      = [OutMsg.clear (some (.jstr "SID123")),
         OutMsg.media (some (.jstr "SID123")) "Bw=="] :=
  rfl

/-- Invariant of the `interrupt()` / delivery-loop race: media frames
are emitted only by the delivery iteration's completed send (so zero
before, at most one ever), clear frames only by `interrupt()`'s
completed clear (zero before, at most one ever), and once the drain
loop has observed `queue.Empty` the queue stays empty. -/
def RaceInv (s : ConcState) : Prop :=
  (s.dpc = DPc.dDone ∨ countMedia s.trace = 0) ∧
  countMedia s.trace ≤ 1 ∧
  (s.ipc = IPc.iDone ∨ countClear s.trace = 0) ∧
  countClear s.trace ≤ 1 ∧
  (s.ipc ≠ IPc.iDrain → s.queue = [])

/-- Media count distributes over trace concatenation. -/
theorem countMedia_append : ∀ t u : List OutMsg,
    countMedia (t ++ u) = countMedia t + countMedia u := by
  intro t u
  induction t with
  | nil => simp [countMedia]
  | cons h rest ih =>
      cases h with
      | media sid p => simp [countMedia, ih]; omega
      | clear sid => simp [countMedia, ih]

/-- Clear count distributes over trace concatenation. -/
theorem countClear_append : ∀ t u : List OutMsg,
    countClear (t ++ u) = countClear t + countClear u := by
  intro t u
  induction t with
  | nil => simp [countClear]
  | cons h rest ih =>
      cases h with
      | media sid p => simp [countClear, ih]
      | clear sid => simp [countClear, ih]; omega

/-- A delivery step preserves the race invariant. -/
theorem raceInv_stepD (s : ConcState) (h : RaceInv s) :
    RaceInv (stepD s) := by
  obtain ⟨h1, h2, h3, h4, h5⟩ := h
  cases hd : s.dpc with
  | dGet =>
      cases hq : s.queue with
      | nil =>
          refine ⟨Or.inl ?_, ?_, ?_, ?_, ?_⟩ <;>
            simp_all [stepD, RaceInv]
      | cons a rest =>
          have hm : countMedia s.trace = 0 := by
            rcases h1 with h1 | h1
            · rw [hd] at h1; exact absurd h1 (by simp)
            · exact h1
          refine ⟨Or.inr ?_, ?_, ?_, ?_, ?_⟩ <;>
            simp_all [stepD, RaceInv]
  | dSend a =>
      have hm : countMedia s.trace = 0 := by
        rcases h1 with h1 | h1
        · rw [hd] at h1; exact absurd h1 (by simp)
        · exact h1
      refine ⟨Or.inl ?_, ?_, ?_, ?_, ?_⟩ <;>
        simp_all [stepD, countMedia_append, countClear_append, countMedia,
          countClear]
  | dDone =>
      refine ⟨Or.inl ?_, ?_, ?_, ?_, ?_⟩ <;> simp_all [stepD]

/-- An interrupt step preserves the race invariant. -/
theorem raceInv_stepI (s : ConcState) (h : RaceInv s) :
    RaceInv (stepI s) := by
  obtain ⟨h1, h2, h3, h4, h5⟩ := h
  cases hi : s.ipc with
  | iDrain =>
      cases hq : s.queue with
      | nil =>
          refine ⟨?_, ?_, ?_, ?_, ?_⟩ <;> simp_all [stepI]
      | cons a rest =>
          refine ⟨?_, ?_, ?_, ?_, ?_⟩ <;> simp_all [stepI]
  | iClear =>
      have hc : countClear s.trace = 0 := by
        rcases h3 with h3 | h3
        · rw [hi] at h3; exact absurd h3 (by simp)
        · exact h3
      have hqe : s.queue = [] := h5 (by rw [hi]; simp)
      refine ⟨?_, ?_, Or.inl ?_, ?_, ?_⟩ <;>
        simp_all [stepI, countMedia_append, countClear_append, countMedia,
          countClear]
  | iDone =>
      refine ⟨?_, ?_, Or.inl ?_, ?_, ?_⟩ <;> simp_all [stepI]

/-- Every schedule preserves the race invariant. -/
theorem raceInv_runSched : ∀ (sched : List Bool) (s : ConcState),
    RaceInv s → RaceInv (runSched sched s) := by
  intro sched
  induction sched with
  | nil => intro s h; exact h
  | cons c cs ih =>
      intro s h
      cases c
      · exact ih _ (raceInv_stepI s h)
      · exact ih _ (raceInv_stepD s h)

/-- C9, amended: the drain is atomic only per queue operation — a
frame the delivery loop had already dequeued when `interrupt()` ran
can still reach the transport after the flush (`c9_counterexample`) —
but in every interleaving of one delivery iteration with one
`interrupt()` at most that single media frame is emitted, at most one
clear frame is emitted, and once the drain loop has observed an empty
queue the queue remains empty ever after. -/
theorem c9_amended_per_op_atomicity (sched : List Bool) (q : List Buf)
    (sid : Option JVal) :
    countMedia (runSched sched (initConc q sid)).trace ≤ 1 ∧
    countClear (runSched sched (initConc q sid)).trace ≤ 1 ∧
    ((runSched sched (initConc q sid)).ipc ≠ IPc.iDrain →
      (runSched sched (initConc q sid)).queue = []) := by
  have h0 : RaceInv (initConc q sid) := by
    refine ⟨Or.inr rfl, ?_, Or.inr rfl, ?_, ?_⟩ <;>
      simp [initConc, countMedia, countClear]
  have h := raceInv_runSched sched (initConc q sid) h0
  exact ⟨h.2.1, h.2.2.2.1, h.2.2.2.2⟩

end IvrBot
